import Mathlib

/-
Verification development for the embed-content acquisition and caching
pipeline of the embedbase plugin (src/plugins/embedbase/plugin.js).
The JavaScript source is shallowly embedded: pure fragments become Lean
functions, the stateful parts (the JSONP transport lifecycle, the
notification aggregator, the frame-content cache) become explicit state
passing or step relations.  Line numbers in the comments refer to
src/plugins/embedbase/plugin.js.
-/

/-!  ### String utilities used by the plugin  -/

/-- Modelled from the spec: CKEDITOR.tools.htmlEncodeAttr (a core editor
utility whose source is not among the repository files here) HTML-encodes a
string for use inside a double-quoted attribute value: the ampersand, the
angle brackets and the double quote are replaced by their entities
(first the ampersand, so entities are not double-encoded; the sequential
replacements are equivalent to this single character map). -/
def encodeAttrChar (c : Char) : List Char :=
  if c = '&' then "&amp;".data
  else if c = '<' then "&lt;".data
  else if c = '>' then "&gt;".data
  else if c = '"' then "&quot;".data
  else [c]

/-- Modelled from the spec: CKEDITOR.tools.htmlEncodeAttr lifted to strings. -/
def htmlEncodeAttr (s : String) : String :=
  String.mk (List.flatten (s.data.map encodeAttrChar))

/-- Decoder for HTML attribute values: replaces the four entities produced by
htmlEncodeAttr back by their characters.  Used to state that an encoded
attribute value still denotes the original string.  The first argument is
fuel; each step consumes at least one character, so fuel equal to the length
of the input makes the fuel-exhausted branch unreachable. -/
def decodeAttrListF : Nat → List Char → List Char
  | _, [] => []
  | 0, l => l
  | fuel+1, c :: rest =>
    if c = '&' ∧ "amp;".data.isPrefixOf rest then '&' :: decodeAttrListF fuel (rest.drop 4)
    else if c = '&' ∧ "lt;".data.isPrefixOf rest then '<' :: decodeAttrListF fuel (rest.drop 3)
    else if c = '&' ∧ "gt;".data.isPrefixOf rest then '>' :: decodeAttrListF fuel (rest.drop 3)
    else if c = '&' ∧ "quot;".data.isPrefixOf rest then '"' :: decodeAttrListF fuel (rest.drop 5)
    else c :: decodeAttrListF fuel rest

/-- Decoder for HTML attribute values, on strings. -/
def decodeAttr (s : String) : String :=
  String.mk (decodeAttrListF s.data.length s.data)

/-- Embedding of the JavaScript global literal replacement
text.replace(pattern, repl) with a /g regular expression whose pattern is the
literal p :: ps: the scan is left to right, each match is replaced and the
scan continues after the matched segment of the original input (the
replacement text itself is not rescanned).  The Nat argument is fuel; each
step consumes at least one character, so fuel equal to the length of the
input makes the fuel-exhausted branch unreachable. -/
def replaceListF (p : Char) (ps repl : List Char) : Nat → List Char → List Char
  | _, [] => []
  | 0, l => l
  | fuel+1, c :: rest =>
    if c = p ∧ ps.isPrefixOf rest then
      repl ++ replaceListF p ps repl fuel (rest.drop ps.length)
    else
      c :: replaceListF p ps repl fuel rest

/-- JavaScript String#replace with a global literal pattern, on strings.
An empty pattern never occurs in the plugin; it is mapped to the identity. -/
def jsReplaceAll (pat repl s : String) : String :=
  match pat.data with
  | [] => s
  | p :: ps => String.mk (replaceListF p ps repl.data s.data.length s.data)

/-!  ### The oEmbed provider response  -/

/-- A provider (oEmbed) response, with the fields the embedded code reads:
response.type, response.url, response.title (possibly absent) and
response.html.  (plugin.js reads further fields only in the IE-specific
_generateContent branch, which is outside the embedded, standard path.) -/
structure Resp where
  rtype : String
  url : String
  title : Option String
  html : String
  deriving Repr, DecidableEq

/-- Embedding of _responseToHtml (plugin.js lines 657-670).  The returned
pair is (the returned HTML or null, the response object after the call):
the video/rich branch assigns response.html in place
(response.html = response.html.replace(/<iframe/g, ...)), so the response
object itself changes there; response.title || restricted to strings is the
empty string when the title is absent. -/
def responseToHtml (response : Resp) : Option String × Resp :=
  if response.rtype = "photo" then
    (some ("<img src=\"" ++ htmlEncodeAttr response.url ++ "\" alt=\"" ++
      htmlEncodeAttr (response.title.getD "") ++ "\" style=\"max-width:100%;height:auto\" />"),
     response)
  else if response.rtype = "video" ∨ response.rtype = "rich" then
    (some (jsReplaceAll "<iframe" "<iframe tabindex=\"-1\"" response.html),
     { response with html := jsReplaceAll "<iframe" "<iframe tabindex=\"-1\"" response.html })
  else
    (none, response)

/-!  ### Response cache (the per-definition _cache object)  -/

/-- Embedding of _getCachedResponse (plugin.js lines 794-796): the response
cache is a plain object keyed by URL; lookup returns the stored response or
undefined.  The object is modelled as an association list whose first
binding for a key is its current value. -/
def getCachedResponse (cache : List (String × Resp)) (url : String) : Option Resp :=
  (cache.find? (fun p => p.1 = url)).map (fun p => p.2)

/-- Embedding of _cacheResponse (plugin.js lines 783-785): property
assignment this._cache[url] = response, modelled as replacing the binding
for url. -/
def cacheResponse (cache : List (String × Resp)) (url : String) (response : Resp) :
    List (String × Resp) :=
  (url, response) :: cache.filter (fun p => ¬(p.1 = url))

/-!  ### The request coordinator: loadContent and finishLoading  -/

/-- Options accepted by loadContent (plugin.js line 430): whether a success
callback and an error callback were supplied, and the noNotifications flag.
The callbacks themselves are recorded as invocation events in the outcome
records below. -/
structure LoadOpts where
  hasCallback : Bool
  hasErrorCallback : Bool
  noNotifications : Bool
  deriving Repr, DecidableEq

/-- Everything observable that one run of finishLoading (plugin.js lines
463-486) does: which callbacks fired, what happened to the progress task,
the notification, the response cache, and the content containers. -/
structure FinishOutcome where
  widgetInvalidWarned : Bool
  taskDone : Bool
  taskCanceled : Bool
  notificationShown : Bool
  successCbCalled : Bool
  errorCbArg : Option String
  cacheAfter : List (String × Resp)
  setContentArg : Option (String × String)
  addContentArg : Option String
  responseAfter : Resp
  deriving Repr, DecidableEq

/-- Embedding of finishLoading (plugin.js lines 463-486) together with the
handlers it calls: _handleResponse (lines 597-630) with its default
handleResponse listener (lines 204-217, which runs responseToHtml because
evt.data.html starts out as the empty string), the errorCallback built in
loadContent (lines 439-444) and _handleError (lines 640-648).  The argument
widgetAlive is the editor.widgets.instances[this.id] check; hasTask is
whether request.task exists.  The standard (non-IE) path is embedded, so
the _generateContent branch guarded by CKEDITOR.env.ie is skipped and
addContent(response.html) runs on success.  Note that on success the object
cached by _cacheResponse and the html passed to addContent are the response
object after the default listener ran, because responseToHtml assigns
response.html in place. -/
def finishLoading (widgetAlive hasTask : Bool) (opts : LoadOpts)
    (cache : List (String × Resp)) (url : String) (response : Resp) : FinishOutcome :=
  if widgetAlive = false then
    { widgetInvalidWarned := true
      taskDone := hasTask
      taskCanceled := false
      notificationShown := false
      successCbCalled := false
      errorCbArg := none
      cacheAfter := cache
      setContentArg := none
      addContentArg := none
      responseAfter := response }
  else
    match responseToHtml response with
    | (some html, response2) =>
      { widgetInvalidWarned := false
        taskDone := hasTask
        taskCanceled := false
        notificationShown := false
        successCbCalled := opts.hasCallback
        errorCbArg := none
        cacheAfter := cacheResponse cache url response2
        setContentArg := some (url, html)
        addContentArg := some response2.html
        responseAfter := response2 }
    | (none, response2) =>
      { widgetInvalidWarned := false
        taskDone := false
        taskCanceled := hasTask
        notificationShown := hasTask && !opts.noNotifications
        successCbCalled := false
        errorCbArg := if opts.hasErrorCallback then some "unsupportedUrl" else none
        cacheAfter := cache
        setContentArg := none
        addContentArg := none
        responseAfter := response2 }

/-- Everything the synchronous body of loadContent (plugin.js lines 430-461
and the final return) does before control returns to the caller: whether a
request object was returned (loadContent returns undefined on the cache-hit
path, line 453), whether a finishLoading run with the cached response was
scheduled by setTimeout for a later scheduler turn (lines 450-452), whether
the sendRequest event was fired (line 461, reaching the JSONP transport via
the default listener), whether a progress task was created (lines 456-458),
and whether either caller callback was invoked synchronously (the
synchronous body contains no call to either). -/
structure LoadOutcome where
  returnedRequest : Bool
  scheduledFinish : Option Resp
  firedSendRequest : Bool
  taskCreated : Bool
  syncSuccessCb : Bool
  syncErrorCb : Bool
  deriving Repr, DecidableEq

/-- Embedding of the synchronous body of loadContent (plugin.js lines
430-461, 488). -/
def loadContentSync (cache : List (String × Resp)) (url : String) (opts : LoadOpts) :
    LoadOutcome :=
  match getCachedResponse cache url with
  | some r =>
    { returnedRequest := false
      scheduledFinish := some r
      firedSendRequest := false
      taskCreated := false
      syncSuccessCb := false
      syncErrorCb := false }
  | none =>
    { returnedRequest := true
      scheduledFinish := none
      firedSendRequest := true
      taskCreated := !opts.noNotifications
      syncSuccessCb := false
      syncErrorCb := false }

/-- One complete cache-hit round for a URL: the synchronous loadContent body
schedules finishLoading with the cached response (plugin.js lines 447-454),
and on the next scheduler turn finishLoading runs on it.  Returns the
response cache after that turn (with an alive widget; the callback flags do
not influence the cache). -/
def cacheHitRound (cache : List (String × Resp)) (url : String) : List (String × Resp) :=
  match getCachedResponse cache url with
  | none => cache
  | some r => (finishLoading true false { hasCallback := true, hasErrorCallback := true, noNotifications := true } cache url r).cacheAfter

/-!  ### The JSONP transport (Jsonp.sendRequest, plugin.js lines 16-80)

The transport lifecycle is embedded as a state machine.  One sendRequest
call allocates a callback key, registers a handler in the global
CKEDITOR._.jsonpCallbacks table, attaches a script element (whose error
event runs cleanUp and then the error callback) and returns a request whose
cancel method is cleanUp.  The registered handler does not run the success
callback directly: it queues a setTimeout closure that first runs cleanUp
and then calls the success callback (lines 53-61).  cleanUp (lines 70-76)
is latched on the scriptElement variable: it removes the script element,
deletes the callback table entry and nulls the variable, and is a no-op
once the variable is null. -/

/-- State of one dispatched JSONP request.  scriptVar is the scriptElement
variable (non-null until cleanUp runs; while it is non-null the script
element is attached); callbackRegistered is the presence of the entry in
CKEDITOR._.jsonpCallbacks; scriptDone is whether the provider script has
reached its one load outcome (it executes or its error event fires);
pendingDeliveries counts queued setTimeout closures from line 57;
successFired / errorFired count invocations of the local callbacks;
cancelCalled records that request.cancel() was invoked. -/
structure JsonpState where
  scriptVar : Bool
  callbackRegistered : Bool
  scriptDone : Bool
  pendingDeliveries : Nat
  successFired : Nat
  errorFired : Nat
  cancelCalled : Bool
  deriving Repr, DecidableEq

/-- State right after Jsonp.sendRequest returns (plugin.js lines 44-78):
handler registered, script attached, nothing fired yet. -/
def jsonpInit : JsonpState :=
  { scriptVar := true
    callbackRegistered := true
    scriptDone := false
    pendingDeliveries := 0
    successFired := 0
    errorFired := 0
    cancelCalled := false }

/-- Embedding of cleanUp (plugin.js lines 70-76): guarded by the
scriptElement variable; removes the script, deregisters the callback key
and nulls the variable; otherwise a no-op. -/
def jsonpCleanUp (s : JsonpState) : JsonpState :=
  if s.scriptVar then
    { s with scriptVar := false, callbackRegistered := false }
  else
    s

/-- The events that can happen to a dispatched JSONP request. -/
inductive JsonpEvent where
  | scriptSuccess
  | scriptFailure
  | timeoutFires
  | cancel
  deriving Repr, DecidableEq

/-- One scheduler-turn step of the JSONP request lifecycle.
scriptSuccess: the provider script executes (its one load outcome) and
calls the globally addressed callback; if the table entry is still
registered this queues the setTimeout closure of line 57, and if it was
deleted the call on the missing property throws inside the provider script
and nothing is queued locally.  scriptFailure: the script element, still
attached, fires its error event, whose listener (lines 63-66) runs cleanUp
and then the error callback.  timeoutFires: one queued closure from line 57
runs cleanUp and then the success callback.  cancel: request.cancel, which
is cleanUp (line 68). -/
inductive JsonpStep : JsonpState → JsonpEvent → JsonpState → Prop where
  | scriptSuccess (s : JsonpState) (h1 : s.scriptDone = false) (h2 : s.callbackRegistered = true) :
      JsonpStep s JsonpEvent.scriptSuccess
        { s with scriptDone := true, pendingDeliveries := s.pendingDeliveries + 1 }
  | scriptSuccessUnregistered (s : JsonpState) (h1 : s.scriptDone = false)
      (h2 : s.callbackRegistered = false) :
      JsonpStep s JsonpEvent.scriptSuccess { s with scriptDone := true }
  | scriptFailure (s : JsonpState) (h1 : s.scriptDone = false) (h2 : s.scriptVar = true) :
      JsonpStep s JsonpEvent.scriptFailure
        { jsonpCleanUp s with scriptDone := true, errorFired := s.errorFired + 1 }
  | timeoutFires (s : JsonpState) (h : 0 < s.pendingDeliveries) :
      JsonpStep s JsonpEvent.timeoutFires
        { jsonpCleanUp s with
            pendingDeliveries := s.pendingDeliveries - 1
            successFired := s.successFired + 1 }
  | cancel (s : JsonpState) :
      JsonpStep s JsonpEvent.cancel { jsonpCleanUp s with cancelCalled := true }

/-- States reachable from the state in which sendRequest just returned. -/
inductive JsonpReachable : JsonpState → Prop where
  | init : JsonpReachable jsonpInit
  | step (s : JsonpState) (e : JsonpEvent) (s2 : JsonpState) :
      JsonpReachable s → JsonpStep s e s2 → JsonpReachable s2

/-- Zero or more steps between two states. -/
inductive JsonpMulti : JsonpState → JsonpState → Prop where
  | refl (s : JsonpState) : JsonpMulti s s
  | tail (s1 s2 s3 : JsonpState) (e : JsonpEvent) :
      JsonpMulti s1 s2 → JsonpStep s2 e s3 → JsonpMulti s1 s3

/-!  ### Frame-content cache (plugin.js lines 91, 932-961, 997-1006)  -/

/-- The window object of the document holding a captured subtree.  hasNative
records whether its native window (the JavaScript window.$ property of the
CKEDITOR window wrapper) is present. -/
structure FrameWindow where
  hasNative : Bool
  deriving Repr, DecidableEq

/-- A JavaScript value as far as isDetached manipulates one: undefined or
null, a boolean primitive, or a window wrapper object. -/
inductive JsVal where
  | undef : JsVal
  | boolv : Bool → JsVal
  | winv : FrameWindow → JsVal
  deriving Repr, DecidableEq

/-- JavaScript truthiness of the modelled values: undefined and null are
falsy, a boolean is itself, an object is truthy. -/
def JsVal.truthy : JsVal → Bool
  | JsVal.undef => false
  | JsVal.boolv b => b
  | JsVal.winv _ => true

/-- Reading the property named by a dollar sign from a modelled value: on a
window wrapper it is the native window when present; on a boolean primitive
or on undefined there is no such property, so the read yields undefined. -/
def JsVal.dollarProp : JsVal → JsVal
  | JsVal.winv w => if w.hasNative then JsVal.boolv true else JsVal.undef
  | _ => JsVal.undef

/-- One cached frame subtree (an entry of editor._.cachedFrameContents[url]):
cid is the identity of the captured document element (splice removes by
reference identity); window is what element.getDocument().getWindow()
returns (none models null); frameAttached is whether the iframe that
produced this capture is still contained in the live document (the ground
truth the liveness check is meant to test). -/
structure CachedContents where
  cid : Nat
  window : Option FrameWindow
  frameAttached : Bool
  deriving Repr, DecidableEq

/-- The result of element.getDocument().getWindow() as a JavaScript value. -/
def getWindowJs (element : CachedContents) : JsVal :=
  match element.window with
  | some w => JsVal.winv w
  | none => JsVal.undef

/-- Embedding of isDetached (plugin.js lines 997-1006), line by line.
Line 998 is var window = !element.getDocument().getWindow(); — the unary
negation coerces the window value to a boolean primitive, so the local
variable named window holds a boolean from here on.  Line 1000 reads
window.$ — a property read on that boolean primitive, which yields
undefined — and returns true when it is falsy, which therefore happens for
every input.  Lines 1004-1005 would call getFrame() on the boolean
primitive, a TypeError; that branch is unreachable.  The Except layer keeps
that would-be exception explicit. -/
def isDetached (element : CachedContents) : Except Unit Bool :=
  let window : JsVal := JsVal.boolv (!(getWindowJs element).truthy)
  if window.dollarProp.truthy = false then
    Except.ok true
  else
    Except.error ()

/-- Embedding of CKEDITOR.tools.array.find as used on line 949: return the
first element on which the predicate holds, threading the exception the
predicate could raise.  (Spec 4.3: the pop operation scans the per-URL list
for the first entry that passes the liveness check.) -/
def findFirstDetached : List CachedContents → Except Unit (Option CachedContents)
  | [] => Except.ok none
  | c :: rest =>
    match isDetached c with
    | Except.error e => Except.error e
    | Except.ok true => Except.ok (some c)
    | Except.ok false => findFirstDetached rest

/-- Lookup of editor._.cachedFrameContents[url], an association list per
editor. -/
def frameCacheGet (m : List (String × List CachedContents)) (url : String) :
    Option (List CachedContents) :=
  (m.find? (fun p => p.1 = url)).map (fun p => p.2)

/-- Assignment editor._.cachedFrameContents[url] = l. -/
def frameCacheSet (m : List (String × List CachedContents)) (url : String)
    (l : List CachedContents) : List (String × List CachedContents) :=
  (url, l) :: m.filter (fun p => ¬(p.1 = url))

/-- Embedding of cache.splice(indexOf(cache, contents), 1) on lines 955-958:
remove the first occurrence of the found element. -/
def removeFirst : List CachedContents → CachedContents → List CachedContents
  | [], _ => []
  | c :: rest, x => if c = x then rest else c :: removeFirst rest x

/-- Embedding of cacheFrameContents (plugin.js lines 932-940): push the
captured element onto the per-URL list, creating the list when absent. -/
def cacheFrameContents (m : List (String × List CachedContents)) (url : String)
    (element : CachedContents) : List (String × List CachedContents) :=
  match frameCacheGet m url with
  | none => frameCacheSet m url [element]
  | some l => frameCacheSet m url (l ++ [element])

/-- Embedding of getCachedFrameContents (plugin.js lines 942-961): when the
per-URL list is absent return null; otherwise find the first entry that
isDetached accepts; when none return null; otherwise remove it from the
list and return it.  The result pairs the returned entry with the map after
the call (splice mutates the stored list in place). -/
def getCachedFrameContents (m : List (String × List CachedContents)) (url : String) :
    Except Unit (Option CachedContents × List (String × List CachedContents)) :=
  match frameCacheGet m url with
  | none => Except.ok (none, m)
  | some cache =>
    match findFirstDetached cache with
    | Except.error e => Except.error e
    | Except.ok none => Except.ok (none, m)
    | Except.ok (some contents) =>
      Except.ok (some contents, frameCacheSet m url (removeFirst cache contents))

/-!  ### Progress aggregation (_createTask, plugin.js lines 764-774)  -/

/-- Modelled from the spec: the state of one notificationAggregator instance
(the notificationaggregator plugin is a required collaborator whose source
is not among the repository files here).  Spec 2 and 8: it groups
concurrent outstanding requests into one unit, and resolving all its tasks
makes it reach a finished state exactly once.  total counts tasks created
by createTask, done counts tasks resolved (done or cancel), finishedEvents
counts firings of the finished event (which hides the notification, lines
768-771). -/
structure AggState where
  total : Nat
  done : Nat
  finishedEvents : Nat
  deriving Repr, DecidableEq

/-- Modelled from the spec: an aggregator is finished when it has tasks and
all of them are resolved (torn down when the last grouped task finishes); a
fresh aggregator with no tasks yet is not finished. -/
def aggIsFinished (a : AggState) : Bool :=
  0 < a.total && a.done = a.total

/-- The aggregator slot shared by all loadContent calls of one widget
definition (the variable aggregator of createWidgetBaseDefinition, line
123), plus a count of how many aggregator instances were ever constructed. -/
structure NotifState where
  aggregator : Option AggState
  aggregatorsCreated : Nat
  deriving Repr, DecidableEq

/-- Embedding of _createTask (plugin.js lines 764-774): when there is no
aggregator or the current one is finished, construct a fresh instance (and
attach the finished listener); then create a task on the current instance. -/
def createTaskStep (s : NotifState) : NotifState :=
  match s.aggregator with
  | none =>
    { aggregator := some { total := 1, done := 0, finishedEvents := 0 }
      aggregatorsCreated := s.aggregatorsCreated + 1 }
  | some a =>
    if aggIsFinished a then
      { aggregator := some { total := 1, done := 0, finishedEvents := 0 }
        aggregatorsCreated := s.aggregatorsCreated + 1 }
    else
      { s with aggregator := some { a with total := a.total + 1 } }

/-- Modelled from the spec: resolving one outstanding task (task.done on
success, task.cancel on error) on the current aggregator; when the last
outstanding task resolves, the finished event fires once. -/
def resolveTaskStep (s : NotifState) : NotifState :=
  match s.aggregator with
  | none => s
  | some a =>
    if a.done < a.total then
      if a.done + 1 = a.total then
        { s with aggregator := some (AggState.mk a.total (a.done + 1) (a.finishedEvents + 1)) }
      else
        { s with aggregator := some { a with done := a.done + 1 } }
    else
      s

/-- Apply a state transformer a number of times, first application first. -/
def applyN (f : NotifState → NotifState) : Nat → NotifState → NotifState
  | 0, s => s
  | k+1, s => applyN f k (f s)

/-- A state from which _createTask would construct a fresh aggregator: no
aggregator yet, or the current one is finished. -/
def aggIdle (s : NotifState) : Prop :=
  s.aggregator = none ∨ ∃ a, s.aggregator = some a ∧ aggIsFinished a = true

/-!  ### Helper lemmas  -/

/-- Attribute decoding inverts the attribute encoder, character-list level:
the four entities the encoder produces are distinguished by their first two
characters, so the left-to-right decode restores the input. -/
theorem decodeAttrListF_encode (l : List Char) :
    ∀ fuel, (List.flatten (l.map encodeAttrChar)).length ≤ fuel →
      decodeAttrListF fuel (List.flatten (l.map encodeAttrChar)) = l := by
  induction l with
  | nil => intro fuel _; cases fuel <;> rfl
  | cons c rest ih =>
    intro fuel hfuel
    rw [List.map_cons, List.flatten_cons, List.length_append] at hfuel
    rw [List.map_cons, List.flatten_cons]
    by_cases h1 : c = '&'
    · subst h1
      have he : encodeAttrChar '&' = '&' :: 'a' :: 'm' :: 'p' :: ';' :: [] := rfl
      rw [he] at hfuel ⊢
      cases fuel with
      | zero => simp only [List.length_cons, List.length_nil] at hfuel; omega
      | succ fuel =>
        have hr : (List.flatten (rest.map encodeAttrChar)).length ≤ fuel := by
          simp only [List.length_cons, List.length_nil] at hfuel; omega
        simp [decodeAttrListF, List.isPrefixOf, ih fuel hr]
    · by_cases h2 : c = '<'
      · subst h2
        have he : encodeAttrChar '<' = '&' :: 'l' :: 't' :: ';' :: [] := rfl
        rw [he] at hfuel ⊢
        cases fuel with
        | zero => simp only [List.length_cons, List.length_nil] at hfuel; omega
        | succ fuel =>
          have hr : (List.flatten (rest.map encodeAttrChar)).length ≤ fuel := by
            simp only [List.length_cons, List.length_nil] at hfuel; omega
          simp [decodeAttrListF, List.isPrefixOf, ih fuel hr]
      · by_cases h3 : c = '>'
        · subst h3
          have he : encodeAttrChar '>' = '&' :: 'g' :: 't' :: ';' :: [] := rfl
          rw [he] at hfuel ⊢
          cases fuel with
          | zero => simp only [List.length_cons, List.length_nil] at hfuel; omega
          | succ fuel =>
            have hr : (List.flatten (rest.map encodeAttrChar)).length ≤ fuel := by
              simp only [List.length_cons, List.length_nil] at hfuel; omega
            simp [decodeAttrListF, List.isPrefixOf, ih fuel hr]
        · by_cases h4 : c = '"'
          · subst h4
            have he : encodeAttrChar '"' = '&' :: 'q' :: 'u' :: 'o' :: 't' :: ';' :: [] := rfl
            rw [he] at hfuel ⊢
            cases fuel with
            | zero => simp only [List.length_cons, List.length_nil] at hfuel; omega
            | succ fuel =>
              have hr : (List.flatten (rest.map encodeAttrChar)).length ≤ fuel := by
                simp only [List.length_cons, List.length_nil] at hfuel; omega
              simp [decodeAttrListF, List.isPrefixOf, ih fuel hr]
          · have he : encodeAttrChar c = [c] := by
              simp [encodeAttrChar, h1, h2, h3, h4]
            rw [he] at hfuel ⊢
            cases fuel with
            | zero => simp only [List.length_cons, List.length_nil] at hfuel; omega
            | succ fuel =>
              have hr : (List.flatten (rest.map encodeAttrChar)).length ≤ fuel := by
                simp only [List.length_cons, List.length_nil] at hfuel; omega
              simp [decodeAttrListF, List.isPrefixOf, h1, ih fuel hr]

/-- Attribute decoding inverts the attribute encoder: the encoded attribute
value still denotes exactly the original string. -/
theorem decodeAttr_htmlEncodeAttr (s : String) : decodeAttr (htmlEncodeAttr s) = s := by
  cases s with
  | mk cs =>
    show String.mk (decodeAttrListF (List.flatten (cs.map encodeAttrChar)).length
      (List.flatten (cs.map encodeAttrChar))) = String.mk cs
    rw [decodeAttrListF_encode cs (List.flatten (cs.map encodeAttrChar)).length le_rfl]

/-- The attribute encoder never emits a raw double quote for any character. -/
theorem quot_not_mem_encodeAttrChar (c : Char) : '"' ∉ encodeAttrChar c := by
  unfold encodeAttrChar
  split_ifs with h1 h2 h3 h4
  · decide
  · decide
  · decide
  · decide
  · simp only [List.mem_singleton]
    intro h
    exact h4 h.symm

/-- The attribute encoder never emits a raw left angle bracket. -/
theorem lt_not_mem_encodeAttrChar (c : Char) : '<' ∉ encodeAttrChar c := by
  unfold encodeAttrChar
  split_ifs with h1 h2 h3 h4
  · decide
  · decide
  · decide
  · decide
  · simp only [List.mem_singleton]
    intro h
    exact h2 h.symm

/-- An encoded attribute value contains no raw double quote, so data placed
in a double-quoted attribute cannot terminate the attribute. -/
theorem quot_not_mem_htmlEncodeAttr (s : String) : '"' ∉ (htmlEncodeAttr s).data := by
  unfold htmlEncodeAttr
  intro h
  rw [List.mem_flatten] at h
  obtain ⟨l, hl, hmem⟩ := h
  rw [List.mem_map] at hl
  obtain ⟨c, _, rfl⟩ := hl
  exact quot_not_mem_encodeAttrChar c hmem

/-- An encoded attribute value contains no raw left angle bracket, so data
placed in an attribute cannot open a new tag. -/
theorem lt_not_mem_htmlEncodeAttr (s : String) : '<' ∉ (htmlEncodeAttr s).data := by
  unfold htmlEncodeAttr
  intro h
  rw [List.mem_flatten] at h
  obtain ⟨l, hl, hmem⟩ := h
  rw [List.mem_map] at hl
  obtain ⟨c, _, rfl⟩ := hl
  exact lt_not_mem_encodeAttrChar c hmem

/-!  ### Claim C1  -/

/-- C1: the default response-to-content conversion returns, for a photo
response, an image element whose source attribute is the (attribute-encoded,
hence still denoting the same string) response url and whose alt text is the
(encoded) response title; for a video or rich response, the response html
with every occurrence of the iframe opening tag rewritten to carry
tabindex minus one; and for every other type no content, in which case the
error callback supplied to loadContent receives the kind unsupportedUrl. -/
theorem C1_responseToHtml_policy (response : Resp) (url : String)
    (cache : List (String × Resp)) (hasTask : Bool) :
    (response.rtype = "photo" →
      (responseToHtml response).1 =
        some ("<img src=\"" ++ htmlEncodeAttr response.url ++ "\" alt=\"" ++
          htmlEncodeAttr (response.title.getD "") ++
          "\" style=\"max-width:100%;height:auto\" />") ∧
      decodeAttr (htmlEncodeAttr response.url) = response.url ∧
      decodeAttr (htmlEncodeAttr (response.title.getD "")) = response.title.getD "") ∧
    ((response.rtype = "video" ∨ response.rtype = "rich") →
      (responseToHtml response).1 =
        some (jsReplaceAll "<iframe" "<iframe tabindex=\"-1\"" response.html)) ∧
    (response.rtype ≠ "photo" → response.rtype ≠ "video" → response.rtype ≠ "rich" →
      (responseToHtml response).1 = none ∧
      (finishLoading true hasTask (LoadOpts.mk true true false) cache url response).errorCbArg
        = some "unsupportedUrl" ∧
      (finishLoading true hasTask (LoadOpts.mk true true false) cache url response).successCbCalled
        = false) := by
  refine ⟨?_, ?_, ?_⟩
  · intro h
    refine ⟨?_, decodeAttr_htmlEncodeAttr _, decodeAttr_htmlEncodeAttr _⟩
    simp [responseToHtml, h]
  · intro h
    rcases h with h | h <;> simp [responseToHtml, h]
  · intro h1 h2 h3
    refine ⟨?_, ?_, ?_⟩ <;> simp [responseToHtml, finishLoading, h1, h2, h3]

/-- C1 witness: the policy evaluated at a concrete photo response and at a
concrete response of the unsupported type link. -/
theorem C1_responseToHtml_policy_witness :
    (responseToHtml (Resp.mk "photo" "https://x/img.png" (some "T") "")).1 =
      some "<img src=\"https://x/img.png\" alt=\"T\" style=\"max-width:100%;height:auto\" />" ∧
    (responseToHtml (Resp.mk "link" "u" none "")).1 = none ∧
    (finishLoading true false (LoadOpts.mk true true false) [] "u"
      (Resp.mk "link" "u" none "")).errorCbArg = some "unsupportedUrl" := by
  have hp := (C1_responseToHtml_policy (Resp.mk "photo" "https://x/img.png" (some "T") "")
    "u" [] false).1 rfl
  have ho := (C1_responseToHtml_policy (Resp.mk "link" "u" none "") "u" [] false).2.2
    (by decide) (by decide) (by decide)
  refine ⟨?_, ho.1, ho.2.1⟩
  rw [hp.1]
  decide

/-!  ### Claim C10  -/

/-- C10: for a photo response the produced image markup embeds the
attribute-encoded url and title as the src and alt values, the encoder
output contains no raw double quote and no raw left angle bracket (so
attribute-delimiter characters in provider data cannot break out of the
attribute), and an absent title yields an empty alt attribute value. -/
theorem C10_attr_encoding (response : Resp) (h : response.rtype = "photo") :
    (responseToHtml response).1 =
      some ("<img src=\"" ++ htmlEncodeAttr response.url ++ "\" alt=\"" ++
        htmlEncodeAttr (response.title.getD "") ++
        "\" style=\"max-width:100%;height:auto\" />") ∧
    (∀ s : String, '"' ∉ (htmlEncodeAttr s).data) ∧
    (∀ s : String, '<' ∉ (htmlEncodeAttr s).data) ∧
    (response.title = none → htmlEncodeAttr (response.title.getD "") = "") := by
  refine ⟨?_, quot_not_mem_htmlEncodeAttr, lt_not_mem_htmlEncodeAttr, ?_⟩
  · simp [responseToHtml, h]
  · intro ht
    rw [ht]
    rfl

/-- C10 witness: the encoding evaluated at a photo response whose url and
title carry a double quote and an angle bracket, and at a photo response
with no title. -/
theorem C10_attr_encoding_witness :
    (responseToHtml (Resp.mk "photo" "https://x/a\".png" (some "a\"<b") "")).1 =
      some "<img src=\"https://x/a&quot;.png\" alt=\"a&quot;&lt;b\" style=\"max-width:100%;height:auto\" />" ∧
    (responseToHtml (Resp.mk "photo" "https://x/i.png" none "")).1 =
      some "<img src=\"https://x/i.png\" alt=\"\" style=\"max-width:100%;height:auto\" />" := by
  have h1 := (C10_attr_encoding (Resp.mk "photo" "https://x/a\".png" (some "a\"<b") "") rfl).1
  have h2 := (C10_attr_encoding (Resp.mk "photo" "https://x/i.png" none "") rfl).1
  rw [h1, h2]
  exact ⟨by decide, by decide⟩

/-!  ### Claims C2, C7, C8: the loadContent synchronous contract  -/

/-- C2: on a cache hit the synchronous body of loadContent invokes neither
caller callback, dispatches no transport request, and instead schedules a
finishLoading run with the cached response for a later scheduler turn; when
that scheduled turn runs with the widget still alive and a success callback
supplied, and the cached response converts to content, the success callback
fires there. -/
theorem C2_cacheHit_async (cache : List (String × Resp)) (url : String)
    (opts : LoadOpts) (r : Resp) (h : getCachedResponse cache url = some r) :
    (loadContentSync cache url opts).syncSuccessCb = false ∧
    (loadContentSync cache url opts).syncErrorCb = false ∧
    (loadContentSync cache url opts).firedSendRequest = false ∧
    (loadContentSync cache url opts).scheduledFinish = some r ∧
    (opts.hasCallback = true → (responseToHtml r).1 ≠ none →
      (finishLoading true false opts cache url r).successCbCalled = true) := by
  refine ⟨?_, ?_, ?_, ?_, ?_⟩
  · simp [loadContentSync, h]
  · simp [loadContentSync, h]
  · simp [loadContentSync, h]
  · simp [loadContentSync, h]
  · intro hcb hconv
    rcases hrt : responseToHtml r with ⟨first, second⟩
    cases first with
    | none => rw [hrt] at hconv; exact absurd rfl hconv
    | some html => simp [finishLoading, hrt, hcb]

/-- C2 witness: a concrete cache holding a video response for one URL; the
second loadContent call for it fires nothing synchronously, schedules the
cached response, and the scheduled turn fires the success callback. -/
theorem C2_cacheHit_async_witness :
    (loadContentSync [("https://vid.example/1", Resp.mk "video" "https://vid.example/1" none "<p>x</p>")]
      "https://vid.example/1" (LoadOpts.mk true true false)).syncSuccessCb = false ∧
    (loadContentSync [("https://vid.example/1", Resp.mk "video" "https://vid.example/1" none "<p>x</p>")]
      "https://vid.example/1" (LoadOpts.mk true true false)).firedSendRequest = false ∧
    (finishLoading true false (LoadOpts.mk true true false)
      [("https://vid.example/1", Resp.mk "video" "https://vid.example/1" none "<p>x</p>")]
      "https://vid.example/1"
      (Resp.mk "video" "https://vid.example/1" none "<p>x</p>")).successCbCalled = true := by
  have h := C2_cacheHit_async
    [("https://vid.example/1", Resp.mk "video" "https://vid.example/1" none "<p>x</p>")]
    "https://vid.example/1" (LoadOpts.mk true true false)
    (Resp.mk "video" "https://vid.example/1" none "<p>x</p>") (by decide)
  exact ⟨h.1, h.2.2.1, h.2.2.2.2 rfl (by decide)⟩

/-- C7: loadContent surfaces no request handle on a cache hit (it returns
undefined before reaching the dispatch path, so no transport request is
sent), and on a cache miss it returns the request object and fires the
sendRequest event that reaches the transport. -/
theorem C7_loadContent_return (cache : List (String × Resp)) (url : String)
    (opts : LoadOpts) :
    ((getCachedResponse cache url).isSome = true →
      (loadContentSync cache url opts).returnedRequest = false ∧
      (loadContentSync cache url opts).firedSendRequest = false) ∧
    (getCachedResponse cache url = none →
      (loadContentSync cache url opts).returnedRequest = true ∧
      (loadContentSync cache url opts).firedSendRequest = true) := by
  constructor
  · intro h
    rcases hc : getCachedResponse cache url with _ | r
    · rw [hc] at h; simp at h
    · simp [loadContentSync, hc]
  · intro h
    simp [loadContentSync, h]

/-- C7 witness: a concrete one-entry cache; the hit returns no handle and
sends nothing, the miss returns the request and dispatches. -/
theorem C7_loadContent_return_witness :
    (loadContentSync [("u", Resp.mk "video" "u" none "x")] "u"
      (LoadOpts.mk false false false)).returnedRequest = false ∧
    (loadContentSync [("u", Resp.mk "video" "u" none "x")] "v"
      (LoadOpts.mk false false false)).returnedRequest = true ∧
    (loadContentSync [("u", Resp.mk "video" "u" none "x")] "v"
      (LoadOpts.mk false false false)).firedSendRequest = true := by
  have h1 := (C7_loadContent_return [("u", Resp.mk "video" "u" none "x")] "u"
    (LoadOpts.mk false false false)).1 (by decide)
  have h2 := (C7_loadContent_return [("u", Resp.mk "video" "u" none "x")] "v"
    (LoadOpts.mk false false false)).2 (by decide)
  exact ⟨h1.1, h2.1, h2.2⟩

/-- C8: when the response arrives after the consuming widget was destroyed
(it is no longer in the editor widget registry), finishLoading discards it:
no success or error callback, no content installation, no notification, no
cache change; only the widget-invalid warning is logged and the progress
task, when present, is resolved by task.done. -/
theorem C8_widget_invalid_discard (hasTask : Bool) (opts : LoadOpts)
    (cache : List (String × Resp)) (url : String) (response : Resp) :
    finishLoading false hasTask opts cache url response =
      FinishOutcome.mk true hasTask false false false none cache none none response := by
  simp [finishLoading]

/-!  ### Claim C4: the cached response is not immutable  -/

/-- Storing a response under a URL makes it the value of the next lookup for
that URL. -/
theorem getCachedResponse_cacheResponse (cache : List (String × Resp)) (url : String)
    (r : Resp) : getCachedResponse (cacheResponse cache url r) url = some r := by
  simp [getCachedResponse, cacheResponse, List.find?_cons_of_pos]

/-- A concrete cached video response, exactly as the first successful load
stores it (its html was already rewritten once by the default listener). -/
def videoCachedResp : Resp :=
  Resp.mk "video" "https://vid.example/1" none
    "<iframe tabindex=\"-1\" src=\"//vid.example/embed/1\"></iframe>"

/-- A response cache holding videoCachedResp under its URL. -/
def videoCache : List (String × Resp) := [("https://vid.example/1", videoCachedResp)]

/-- C4 counterexample: one cache-hit loadContent round for the cached video
response changes the cached object: the default handleResponse listener
reruns the iframe rewrite on the cached html in place, prefixing a second
tabindex attribute, so the cached response is not left unchanged. -/
theorem C4_cached_response_mutated_cex :
    getCachedResponse (cacheHitRound videoCache "https://vid.example/1")
        "https://vid.example/1" ≠ some videoCachedResp ∧
    getCachedResponse (cacheHitRound videoCache "https://vid.example/1")
        "https://vid.example/1" =
      some (Resp.mk "video" "https://vid.example/1" none
        "<iframe tabindex=\"-1\" tabindex=\"-1\" src=\"//vid.example/embed/1\"></iframe>") := by
  constructor
  · decide
  · decide

/-- C4 amended: a cache hit reruns response handling on the cached object;
for responses of type video or rich this rewrites the html field in place
(every iframe occurrence gets another tabindex attribute) and the mutated
object is what the cache then holds, while responses of every other type,
and every field other than html, are left unchanged. -/
theorem C4_cache_mutation_amended (cache : List (String × Resp)) (url : String)
    (r : Resp) (h : getCachedResponse cache url = some r) :
    (r.rtype ≠ "video" → r.rtype ≠ "rich" →
      getCachedResponse (cacheHitRound cache url) url = some r) ∧
    ((r.rtype = "video" ∨ r.rtype = "rich") →
      getCachedResponse (cacheHitRound cache url) url =
        some { r with html := jsReplaceAll "<iframe" "<iframe tabindex=\"-1\"" r.html }) := by
  constructor
  · intro h1 h2
    by_cases hp : r.rtype = "photo"
    · simp [cacheHitRound, h, finishLoading, responseToHtml, hp,
        getCachedResponse_cacheResponse]
    · simp [cacheHitRound, h, finishLoading, responseToHtml, hp, h1, h2]
  · intro hv
    have hne : ¬(r.rtype = "photo") := by
      rcases hv with hv | hv <;> rw [hv] <;> decide
    simp [cacheHitRound, h, finishLoading, responseToHtml, hne, hv,
      getCachedResponse_cacheResponse]

/-- C4 amended witness: the amended statement evaluated on the concrete
video cache and on a photo cache. -/
theorem C4_cache_mutation_amended_witness :
    getCachedResponse (cacheHitRound videoCache "https://vid.example/1")
        "https://vid.example/1" =
      some (Resp.mk "video" "https://vid.example/1" none
        (jsReplaceAll "<iframe" "<iframe tabindex=\"-1\"" videoCachedResp.html)) ∧
    getCachedResponse
        (cacheHitRound [("p", Resp.mk "photo" "https://x/i.png" none "")] "p") "p" =
      some (Resp.mk "photo" "https://x/i.png" none "") := by
  have h1 := (C4_cache_mutation_amended videoCache "https://vid.example/1"
    videoCachedResp (by decide)).2 (Or.inl rfl)
  have h2 := (C4_cache_mutation_amended [("p", Resp.mk "photo" "https://x/i.png" none "")]
    "p" (Resp.mk "photo" "https://x/i.png" none "") (by decide)).1 (by decide) (by decide)
  exact ⟨h1, h2⟩

/-!  ### Claims C5, C6: the JSONP transport lifecycle  -/

/-- Cleanup always leaves the scriptElement variable nulled. -/
theorem jsonpCleanUp_scriptVar (s : JsonpState) : (jsonpCleanUp s).scriptVar = false := by
  unfold jsonpCleanUp
  split_ifs with h
  · rfl
  · simpa using h

/-- Cleanup leaves the callback key deregistered, given that a state with a
nulled variable already has it deregistered. -/
theorem jsonpCleanUp_cbReg (s : JsonpState)
    (hA : s.scriptVar = false → s.callbackRegistered = false) :
    (jsonpCleanUp s).callbackRegistered = false := by
  unfold jsonpCleanUp
  split_ifs with h
  · rfl
  · exact hA (by simpa using h)

/-- Cleanup changes no field other than the variable and the registration. -/
theorem jsonpCleanUp_rest (s : JsonpState) :
    (jsonpCleanUp s).successFired = s.successFired ∧
    (jsonpCleanUp s).errorFired = s.errorFired ∧
    (jsonpCleanUp s).pendingDeliveries = s.pendingDeliveries ∧
    (jsonpCleanUp s).scriptDone = s.scriptDone ∧
    (jsonpCleanUp s).cancelCalled = s.cancelCalled := by
  unfold jsonpCleanUp
  split_ifs
  · exact ⟨rfl, rfl, rfl, rfl, rfl⟩
  · exact ⟨rfl, rfl, rfl, rfl, rfl⟩

/-- Cleanup of a state whose variable is already nulled is a no-op. -/
theorem jsonpCleanUp_noop (t : JsonpState) (h : t.scriptVar = false) :
    jsonpCleanUp t = t := by
  unfold jsonpCleanUp
  rw [h]
  rfl

/-- One transport step preserves the lifecycle invariants. -/
theorem jsonpStep_preserves (s : JsonpState) (e : JsonpEvent) (s2 : JsonpState)
    (hstep : JsonpStep s e s2)
    (hA : s.scriptVar = false → s.callbackRegistered = false)
    (hB : s.cancelCalled = true → s.scriptVar = false)
    (hC : s.successFired + s.errorFired + s.pendingDeliveries
      + (if s.scriptDone = true then 0 else 1) ≤ 1) :
    (s2.scriptVar = false → s2.callbackRegistered = false) ∧
    (s2.cancelCalled = true → s2.scriptVar = false) ∧
    s2.successFired + s2.errorFired + s2.pendingDeliveries
      + (if s2.scriptDone = true then 0 else 1) ≤ 1 := by
  cases hstep with
  | scriptSuccess h1 h2 =>
    refine ⟨fun hv => hA hv, fun hc => hB hc, ?_⟩
    show s.successFired + s.errorFired + (s.pendingDeliveries + 1)
      + (if true = true then 0 else 1) ≤ 1
    rw [h1] at hC
    rw [if_neg Bool.false_ne_true] at hC
    rw [if_pos rfl]
    omega
  | scriptSuccessUnregistered h1 h2 =>
    refine ⟨fun hv => hA hv, fun hc => hB hc, ?_⟩
    show s.successFired + s.errorFired + s.pendingDeliveries
      + (if true = true then 0 else 1) ≤ 1
    rw [h1] at hC
    rw [if_neg Bool.false_ne_true] at hC
    rw [if_pos rfl]
    omega
  | scriptFailure h1 h2 =>
    obtain ⟨e1, e2, e3, _, _⟩ := jsonpCleanUp_rest s
    refine ⟨fun _ => jsonpCleanUp_cbReg s hA, fun _ => jsonpCleanUp_scriptVar s, ?_⟩
    show (jsonpCleanUp s).successFired + (s.errorFired + 1) + (jsonpCleanUp s).pendingDeliveries
      + (if true = true then 0 else 1) ≤ 1
    rw [h1] at hC
    rw [if_neg Bool.false_ne_true] at hC
    rw [if_pos rfl, e1, e3]
    omega
  | timeoutFires hp =>
    obtain ⟨e1, e2, e3, e4, e5⟩ := jsonpCleanUp_rest s
    refine ⟨fun _ => jsonpCleanUp_cbReg s hA, fun _ => jsonpCleanUp_scriptVar s, ?_⟩
    show (s.successFired + 1) + (jsonpCleanUp s).errorFired + (s.pendingDeliveries - 1)
      + (if (jsonpCleanUp s).scriptDone = true then 0 else 1) ≤ 1
    rw [e2, e4]
    rcases Bool.eq_false_or_eq_true s.scriptDone with hd | hd <;> rw [hd] at hC ⊢
    · rw [if_pos rfl] at hC ⊢
      omega
    · rw [if_neg Bool.false_ne_true] at hC ⊢
      omega
  | cancel =>
    obtain ⟨e1, e2, e3, e4, e5⟩ := jsonpCleanUp_rest s
    refine ⟨fun _ => jsonpCleanUp_cbReg s hA, fun _ => jsonpCleanUp_scriptVar s, ?_⟩
    show (jsonpCleanUp s).successFired + (jsonpCleanUp s).errorFired
      + (jsonpCleanUp s).pendingDeliveries
      + (if (jsonpCleanUp s).scriptDone = true then 0 else 1) ≤ 1
    rw [e1, e2, e3, e4]
    exact hC

/-- Invariants of every reachable transport state: once the scriptElement
variable is nulled the callback key is deregistered; after cancel the
variable is nulled; and the counted terminal outcomes (success and error
callback invocations, queued deliveries, and the one still-possible script
load outcome) never exceed one in total. -/
theorem jsonpInvariant (s : JsonpState) (h : JsonpReachable s) :
    (s.scriptVar = false → s.callbackRegistered = false) ∧
    (s.cancelCalled = true → s.scriptVar = false) ∧
    s.successFired + s.errorFired + s.pendingDeliveries
      + (if s.scriptDone = true then 0 else 1) ≤ 1 := by
  induction h with
  | init => exact ⟨by decide, by decide, by decide⟩
  | step s e s2 hr hstep ih =>
    exact jsonpStep_preserves s e s2 hstep ih.1 ih.2.1 ih.2.2

/-- A state reached from a reachable state is reachable. -/
theorem jsonpMulti_reachable (s t : JsonpState) (hs : JsonpReachable s)
    (hm : JsonpMulti s t) : JsonpReachable t := by
  induction hm with
  | refl => exact hs
  | tail s2 s3 e hm hstep ih => exact JsonpReachable.step s2 e s3 ih hstep

/-- Once cancel was called it stays recorded across every later step. -/
theorem jsonpStep_cancelCalled (s : JsonpState) (e : JsonpEvent) (s2 : JsonpState)
    (hstep : JsonpStep s e s2) (hc : s.cancelCalled = true) : s2.cancelCalled = true := by
  cases hstep with
  | scriptSuccess h1 h2 => exact hc
  | scriptSuccessUnregistered h1 h2 => exact hc
  | scriptFailure h1 h2 =>
    obtain ⟨_, _, _, _, e5⟩ := jsonpCleanUp_rest s
    show (jsonpCleanUp s).cancelCalled = true
    rw [e5]; exact hc
  | timeoutFires hp =>
    obtain ⟨_, _, _, _, e5⟩ := jsonpCleanUp_rest s
    show (jsonpCleanUp s).cancelCalled = true
    rw [e5]; exact hc
  | cancel => rfl

/-- C5 counterexample: a concrete three-step run — the provider response
arrives and queues its deferred delivery, then cancel() is called, then the
queued delivery runs — reaches a state in which cancel was called and the
success callback has fired anyway, so it is not true that exactly one of
the three terminal outcomes occurs, nor that no local callback fires after
cancel(). -/
theorem C5_success_after_cancel_cex :
    JsonpReachable (JsonpState.mk false false true 0 1 0 true) ∧
    (JsonpState.mk false false true 0 1 0 true).cancelCalled = true ∧
    (JsonpState.mk false false true 0 1 0 true).successFired = 1 := by
  refine ⟨?_, rfl, rfl⟩
  have h1 : JsonpStep jsonpInit JsonpEvent.scriptSuccess
      (JsonpState.mk true true true 1 0 0 false) :=
    JsonpStep.scriptSuccess jsonpInit rfl rfl
  have h2 : JsonpStep (JsonpState.mk true true true 1 0 0 false) JsonpEvent.cancel
      (JsonpState.mk false false true 1 0 0 true) :=
    JsonpStep.cancel (JsonpState.mk true true true 1 0 0 false)
  have h3 : JsonpStep (JsonpState.mk false false true 1 0 0 true) JsonpEvent.timeoutFires
      (JsonpState.mk false false true 0 1 0 true) :=
    JsonpStep.timeoutFires (JsonpState.mk false false true 1 0 0 true) (by decide)
  exact JsonpReachable.step _ _ _
    (JsonpReachable.step _ _ _
      (JsonpReachable.step _ _ _ JsonpReachable.init h1) h2) h3

/-- C5 amended: for every dispatched request at most one of the success and
error callbacks ever fires; after cancel() the error callback never fires
again, and the only success that can still fire is a delivery that the
arrived response had already queued before the cancel — from any reachable
canceled state, the error count stays frozen forever, the sum of fired
successes and still-queued deliveries is conserved and is at most one. -/
theorem C5_amended_outcomes (s t : JsonpState) (hs : JsonpReachable s)
    (hc : s.cancelCalled = true) (hm : JsonpMulti s t) :
    t.errorFired = s.errorFired ∧
    t.successFired + t.pendingDeliveries = s.successFired + s.pendingDeliveries ∧
    s.successFired + s.pendingDeliveries ≤ 1 ∧
    t.cancelCalled = true ∧
    t.successFired + t.errorFired ≤ 1 := by
  have hbound : s.successFired + s.pendingDeliveries ≤ 1 := by
    obtain ⟨_, _, hC⟩ := jsonpInvariant s hs
    rcases Bool.eq_false_or_eq_true s.scriptDone with hd | hd <;> rw [hd] at hC
    · rw [if_pos rfl] at hC; omega
    · rw [if_neg Bool.false_ne_true] at hC; omega
  induction hm with
  | refl =>
    obtain ⟨_, _, hC⟩ := jsonpInvariant s hs
    refine ⟨rfl, rfl, hbound, hc, ?_⟩
    rcases Bool.eq_false_or_eq_true s.scriptDone with hd | hd <;> rw [hd] at hC
    · rw [if_pos rfl] at hC; omega
    · rw [if_neg Bool.false_ne_true] at hC; omega
  | tail s2 s3 e hm hstep ih =>
    obtain ⟨ih1, ih2, ih3, ih4, ih5⟩ := ih
    have hr2 : JsonpReachable s2 := jsonpMulti_reachable s s2 hs hm
    have hr3 : JsonpReachable s3 :=
      JsonpReachable.step s2 e s3 hr2 hstep
    obtain ⟨i2A, i2B, i2C⟩ := jsonpInvariant s2 hr2
    have hsv2 : s2.scriptVar = false := i2B ih4
    have hcb2 : s2.callbackRegistered = false := i2A hsv2
    have hclean2 : jsonpCleanUp s2 = s2 := jsonpCleanUp_noop s2 hsv2
    have hc3 : s3.cancelCalled = true := jsonpStep_cancelCalled s2 e s3 hstep ih4
    have hbound3 : s3.successFired + s3.errorFired ≤ 1 := by
      obtain ⟨_, _, hC⟩ := jsonpInvariant s3 hr3
      rcases Bool.eq_false_or_eq_true s3.scriptDone with hd | hd <;> rw [hd] at hC
      · rw [if_pos rfl] at hC; omega
      · rw [if_neg Bool.false_ne_true] at hC; omega
    cases hstep with
    | scriptSuccess h1 h2 => rw [hcb2] at h2; exact absurd h2 Bool.false_ne_true
    | scriptSuccessUnregistered h1 h2 =>
      exact ⟨ih1, ih2, ih3, hc3, hbound3⟩
    | scriptFailure h1 h2 => rw [hsv2] at h2; exact absurd h2 Bool.false_ne_true
    | timeoutFires hp =>
      refine ⟨?_, ?_, ih3, hc3, hbound3⟩
      · show (jsonpCleanUp s2).errorFired = s.errorFired
        rw [hclean2]; exact ih1
      · show s2.successFired + 1 + (s2.pendingDeliveries - 1) =
          s.successFired + s.pendingDeliveries
        omega
    | cancel =>
      refine ⟨?_, ?_, ih3, hc3, hbound3⟩
      · show (jsonpCleanUp s2).errorFired = s.errorFired
        rw [hclean2]; exact ih1
      · show (jsonpCleanUp s2).successFired + (jsonpCleanUp s2).pendingDeliveries =
          s.successFired + s.pendingDeliveries
        rw [hclean2]; exact ih2

/-- C5 amended witness: the amended statement applied to the concrete
reachable canceled state in which the response had already queued its
delivery before the cancel. -/
theorem C5_amended_outcomes_witness :
    (JsonpState.mk false false true 1 0 0 true).successFired +
      (JsonpState.mk false false true 1 0 0 true).pendingDeliveries ≤ 1 ∧
    (JsonpState.mk false false true 1 0 0 true).cancelCalled = true ∧
    (JsonpState.mk false false true 1 0 0 true).errorFired =
      (JsonpState.mk false false true 1 0 0 true).errorFired := by
  have hr : JsonpReachable (JsonpState.mk false false true 1 0 0 true) := by
    have h1 : JsonpStep jsonpInit JsonpEvent.scriptSuccess
        (JsonpState.mk true true true 1 0 0 false) :=
      JsonpStep.scriptSuccess jsonpInit rfl rfl
    have h2 : JsonpStep (JsonpState.mk true true true 1 0 0 false) JsonpEvent.cancel
        (JsonpState.mk false false true 1 0 0 true) :=
      JsonpStep.cancel (JsonpState.mk true true true 1 0 0 false)
    exact JsonpReachable.step _ _ _
      (JsonpReachable.step _ _ _ JsonpReachable.init h1) h2
  have h := C5_amended_outcomes (JsonpState.mk false false true 1 0 0 true)
    (JsonpState.mk false false true 1 0 0 true) hr rfl
    (JsonpMulti.refl (JsonpState.mk false false true 1 0 0 true))
  exact ⟨h.2.2.1, h.2.2.2.1, h.1⟩

/-- C6: transport cleanup is idempotent — for every reachable request state,
cleanup after cleanup equals one cleanup, the first cleanup leaves the
script element removed and the callback key deregistered, and cancel (which
is exactly cleanUp plus the cancel mark) is enabled in every state, never
throws in the model, and never invokes the success or error callback (both
counters are unchanged), in particular when called after the success
callback has already fired. -/
theorem C6_cleanup_idempotent (s : JsonpState) (hs : JsonpReachable s) :
    jsonpCleanUp (jsonpCleanUp s) = jsonpCleanUp s ∧
    (jsonpCleanUp s).scriptVar = false ∧
    (jsonpCleanUp s).callbackRegistered = false ∧
    JsonpStep s JsonpEvent.cancel { jsonpCleanUp s with cancelCalled := true } ∧
    ({ jsonpCleanUp s with cancelCalled := true }).errorFired = s.errorFired ∧
    ({ jsonpCleanUp s with cancelCalled := true }).successFired = s.successFired := by
  obtain ⟨iA, _, _⟩ := jsonpInvariant s hs
  obtain ⟨e1, e2, _, _, _⟩ := jsonpCleanUp_rest s
  refine ⟨jsonpCleanUp_noop (jsonpCleanUp s) (jsonpCleanUp_scriptVar s),
    jsonpCleanUp_scriptVar s, jsonpCleanUp_cbReg s iA, JsonpStep.cancel s, ?_, ?_⟩
  · show (jsonpCleanUp s).errorFired = s.errorFired
    exact e2
  · show (jsonpCleanUp s).successFired = s.successFired
    exact e1

/-- C6 witness: idempotent cleanup evaluated at the state in which the
success callback has already fired (the final state of a successful
exchange), and at the initial state. -/
theorem C6_cleanup_idempotent_witness :
    jsonpCleanUp (jsonpCleanUp jsonpInit) = jsonpCleanUp jsonpInit ∧
    (jsonpCleanUp (JsonpState.mk false false true 0 1 0 false)).successFired = 1 ∧
    (jsonpCleanUp (JsonpState.mk false false true 0 1 0 false)).errorFired = 0 := by
  have hinit := C6_cleanup_idempotent jsonpInit JsonpReachable.init
  have hr : JsonpReachable (JsonpState.mk false false true 0 1 0 false) := by
    have h1 : JsonpStep jsonpInit JsonpEvent.scriptSuccess
        (JsonpState.mk true true true 1 0 0 false) :=
      JsonpStep.scriptSuccess jsonpInit rfl rfl
    have h2 : JsonpStep (JsonpState.mk true true true 1 0 0 false) JsonpEvent.timeoutFires
        (JsonpState.mk false false true 0 1 0 false) :=
      JsonpStep.timeoutFires (JsonpState.mk true true true 1 0 0 false) (by decide)
    exact JsonpReachable.step _ _ _
      (JsonpReachable.step _ _ _ JsonpReachable.init h1) h2
  have hdone := C6_cleanup_idempotent (JsonpState.mk false false true 0 1 0 false) hr
  exact ⟨hinit.1, hdone.2.2.2.2.2, hdone.2.2.2.2.1⟩

/-!  ### Claim C3: the frame-content cache liveness check  -/

/-- The liveness check accepts every entry: whatever getWindow returns, line
998 turns it into a boolean primitive, the property read on line 1000 yields
undefined on a boolean, and the guard !undefined is true, so isDetached
returns true without ever reaching its contains test. -/
theorem isDetached_accepts_everything (element : CachedContents) :
    isDetached element = Except.ok true := by
  unfold isDetached
  rcases element.window with _ | w <;> rfl

/-- A captured subtree whose originating iframe is still attached to the
live document and whose window is live. -/
def attachedEntry : CachedContents :=
  CachedContents.mk 0 (some (FrameWindow.mk true)) true

/-- A frame-content cache holding exactly that attached entry under one URL. -/
def attachedFrameCache : List (String × List CachedContents) := [("u", [attachedEntry])]

/-- C3: evaluating the pop operation on a cache whose only entry originates
from a frame that is still attached: the claim (and spec 4.3/8) require it
to return no entry, but the code returns and removes that attached entry,
because isDetached accepts every entry. -/
theorem C3_pop_returns_attached_entry :
    attachedEntry.frameAttached = true ∧
    isDetached attachedEntry = Except.ok true ∧
    getCachedFrameContents attachedFrameCache "u" =
      Except.ok (some attachedEntry, [("u", [])]) := by
  refine ⟨rfl, ?_, ?_⟩
  · rfl
  · rfl

/-!  ### Claim C9: one aggregator per burst of concurrent loads  -/

/-- From an idle slot (no aggregator, or a finished one) _createTask
constructs exactly one fresh aggregator carrying its first task. -/
theorem createTaskStep_idle (s : NotifState) (h : aggIdle s) :
    createTaskStep s = NotifState.mk (some (AggState.mk 1 0 0)) (s.aggregatorsCreated + 1) := by
  rcases h with h | ⟨a, ha, hfin⟩
  · unfold createTaskStep
    rw [h]
  · unfold createTaskStep
    rw [ha]
    simp [hfin]

/-- While the current aggregator has unresolved tasks, every further
_createTask call reuses it: no new instance is constructed, the task count
grows. -/
theorem createTaskStep_reuse (k : Nat) : ∀ t c, 1 ≤ t →
    applyN createTaskStep k (NotifState.mk (some (AggState.mk t 0 0)) c) =
      NotifState.mk (some (AggState.mk (t + k) 0 0)) c := by
  induction k with
  | zero => intro t c ht; rfl
  | succ k ih =>
    intro t c ht
    have hfin : aggIsFinished (AggState.mk t 0 0) = false := by
      have hne : ¬((0:Nat) = t) := by omega
      simp [aggIsFinished, hne]
    show applyN createTaskStep k (createTaskStep (NotifState.mk (some (AggState.mk t 0 0)) c)) =
      NotifState.mk (some (AggState.mk (t + (k+1)) 0 0)) c
    have hstep : createTaskStep (NotifState.mk (some (AggState.mk t 0 0)) c) =
        NotifState.mk (some (AggState.mk (t + 1) 0 0)) c := by
      unfold createTaskStep
      simp only [hfin]
      rfl
    rw [hstep, ih (t+1) c (by omega)]
    have h1 : t + 1 + k = t + (k + 1) := by omega
    rw [h1]

/-- Resolving outstanding tasks one by one: the finished event does not fire
before the last resolution and fires exactly once at the last one. -/
theorem resolveTaskStep_run (j : Nat) : ∀ n d c, d < n → d + j ≤ n →
    applyN resolveTaskStep j (NotifState.mk (some (AggState.mk n d 0)) c) =
      NotifState.mk (some (AggState.mk n (d + j) (if d + j = n then 1 else 0))) c := by
  induction j with
  | zero =>
    intro n d c hd hj
    have hne : ¬(d + 0 = n) := by omega
    rw [if_neg hne]
    simp [applyN]
  | succ j ih =>
    intro n d c hd hj
    show applyN resolveTaskStep j
      (resolveTaskStep (NotifState.mk (some (AggState.mk n d 0)) c)) = _
    by_cases hlast : d + 1 = n
    · have hstep : resolveTaskStep (NotifState.mk (some (AggState.mk n d 0)) c) =
          NotifState.mk (some (AggState.mk n (d + 1) 1)) c := by
        unfold resolveTaskStep
        simp only [if_pos hd, if_pos hlast]
      have hj0 : j = 0 := by omega
      subst hj0
      rw [hstep]
      have hif : (if d + (0 + 1) = n then 1 else 0) = 1 := if_pos (by omega)
      rw [hif]
      simp [applyN]
    · have hstep : resolveTaskStep (NotifState.mk (some (AggState.mk n d 0)) c) =
          NotifState.mk (some (AggState.mk n (d + 1) 0)) c := by
        unfold resolveTaskStep
        simp only [if_pos hd, if_neg hlast]
      rw [hstep, ih n (d+1) c (by omega) (by omega)]
      have h1 : d + 1 + j = d + (j + 1) := by omega
      rw [h1]

/-- C9: starting from an idle aggregator slot, a burst of n concurrent
loadContent calls without noNotifications (each running _createTask)
constructs exactly one new aggregator — every call after the first reuses
it — and after all n tasks are resolved the aggregator has reached its
finished state exactly once. -/
theorem C9_single_aggregator (s0 : NotifState) (n : Nat) (hidle : aggIdle s0) (hn : 0 < n) :
    (∀ k, 1 ≤ k → k ≤ n →
      (applyN createTaskStep k s0).aggregatorsCreated = s0.aggregatorsCreated + 1) ∧
    (applyN resolveTaskStep n (applyN createTaskStep n s0)).aggregatorsCreated =
      s0.aggregatorsCreated + 1 ∧
    (applyN resolveTaskStep n (applyN createTaskStep n s0)).aggregator =
      some (AggState.mk n n 1) := by
  have hcreate : ∀ k, 1 ≤ k → applyN createTaskStep k s0 =
      NotifState.mk (some (AggState.mk k 0 0)) (s0.aggregatorsCreated + 1) := by
    intro k hk
    obtain ⟨m, rfl⟩ : ∃ m, k = m + 1 := ⟨k - 1, by omega⟩
    show applyN createTaskStep m (createTaskStep s0) =
      NotifState.mk (some (AggState.mk (m + 1) 0 0)) (s0.aggregatorsCreated + 1)
    rw [createTaskStep_idle s0 hidle]
    rw [createTaskStep_reuse m 1 (s0.aggregatorsCreated + 1) (by omega)]
    have h1 : 1 + m = m + 1 := by omega
    rw [h1]
  refine ⟨?_, ?_, ?_⟩
  · intro k h1 h2
    rw [hcreate k h1]
  · rw [hcreate n hn]
    rw [resolveTaskStep_run n n 0 (s0.aggregatorsCreated + 1) hn (by omega)]
  · rw [hcreate n hn]
    rw [resolveTaskStep_run n n 0 (s0.aggregatorsCreated + 1) hn (by omega)]
    have hif : (if 0 + n = n then 1 else 0) = 1 := if_pos (by omega)
    rw [hif]
    have h0 : 0 + n = n := by omega
    rw [h0]

/-- C9 witness: three concurrent calls from an empty slot construct one
aggregator; resolving all three tasks finishes it exactly once. -/
theorem C9_single_aggregator_witness :
    (applyN createTaskStep 2 (NotifState.mk none 0)).aggregatorsCreated = 1 ∧
    (applyN resolveTaskStep 3 (applyN createTaskStep 3 (NotifState.mk none 0))).aggregatorsCreated
      = 1 ∧
    (applyN resolveTaskStep 3 (applyN createTaskStep 3 (NotifState.mk none 0))).aggregator =
      some (AggState.mk 3 3 1) := by
  have h := C9_single_aggregator (NotifState.mk none 0) 3 (Or.inl rfl) (by omega)
  exact ⟨h.1 2 (by omega) (by omega), h.2.1, h.2.2⟩
